import Mathlib

/-!
Shallow embedding of the from-scratch ridge-regression estimator
(class RidgeRegression in ridge_regression_scratch.ipynb) over exact
rational arithmetic, together with models of the numpy/sklearn library
calls the class makes (np.linalg.inv, matrix products with their shape
errors, sklearn.metrics.r2_score).
-/

namespace RidgeSpec

open Matrix

/-- Error kinds of the estimator, as named by the specification.
In the source they surface as library exceptions: SingularMatrix is
numpy.linalg.LinAlgError from np.linalg.inv, DimensionMismatch is the
ValueError a shape-incompatible matrix product raises, NotFitted is the
TypeError raised when an operation touches a None coefficient or
intercept.  UnknownParameter appears in the specification's taxonomy;
the source never raises it. -/
inductive FitError where
  | DimensionMismatch
  | SingularMatrix
  | NotFitted
  | UnknownParameter
deriving DecidableEq

/-- State of a RidgeRegression instance: the fields set in __init__.
coef_ and intercept_ are None (here: none) until fit assigns them. -/
structure RidgeRegression where
  alpha : ℚ
  intercept_ : Option ℚ
  coef_ : Option (List ℚ)
deriving DecidableEq

/-- Constructor __init__(self, alpha=1.0): alpha stored, coef_ and intercept_ None.
The source's default argument is alpha = 1.0. -/
def RidgeRegression.init (alpha : ℚ) : RidgeRegression :=
  ⟨alpha, none, none⟩

/-- The augmented matrix built by fit:
X_ = np.hstack([np.ones((X_.shape[0], 1)), X_]), a column of ones
prepended to (a copy of) X. -/
def augment {n p : ℕ} (X : Matrix (Fin n) (Fin p) ℚ) :
    Matrix (Fin n) (Fin (p + 1)) ℚ :=
  Matrix.of fun i => Matrix.vecCons 1 (X i)

/-- The matrix I built by fit: np.identity(X_.shape[1]) followed by
I[0, 0] = 0, i.e. the identity with the (0,0) entry zeroed. -/
def penaltyId (p : ℕ) : Matrix (Fin (p + 1)) (Fin (p + 1)) ℚ :=
  Matrix.of fun i j => if i = j ∧ (i : ℕ) ≠ 0 then 1 else 0

/-- The penalized normal-equations matrix fit inverts:
X_.T @ X_ + self.alpha * I. -/
def normalMatrix {n p : ℕ} (alpha : ℚ) (X : Matrix (Fin n) (Fin p) ℚ) :
    Matrix (Fin (p + 1)) (Fin (p + 1)) ℚ :=
  (augment X)ᵀ * augment X + alpha • penaltyId p

/-- Model of np.linalg.inv on a square rational matrix: the inverse
det⁻¹ • adjugate, meaningful exactly when the determinant is nonzero
(np.linalg.inv raises LinAlgError on a singular matrix; fit tests the
determinant before using this value). -/
def minv {k : ℕ} (A : Matrix (Fin k) (Fin k) ℚ) : Matrix (Fin k) (Fin k) ℚ :=
  A.det⁻¹ • A.adjugate

/-- fit(self, X, y): copy X, prepend a ones column, build the penalized
normal matrix M, compute w = inv(M) @ X_.T @ y, then assign
intercept_ = w[0] and coef_ = w[1:].  Evaluation order of the source
expression: inv(M) is computed first (raising on a singular M), and the
trailing product with y is what enforces len(y) = n (raising ValueError
otherwise); both errors occur before any assignment to self. -/
def RidgeRegression.fit {n p m : ℕ} (s : RidgeRegression)
    (X : Matrix (Fin n) (Fin p) ℚ) (y : Fin m → ℚ) :
    Except FitError RidgeRegression :=
  if (normalMatrix s.alpha X).det = 0 then
    Except.error FitError.SingularMatrix
  else if h : m = n then
    let w : Fin (p + 1) → ℚ :=
      minv (normalMatrix s.alpha X) *ᵥ
        ((augment X)ᵀ *ᵥ fun i => y (Fin.cast h.symm i))
    Except.ok { s with intercept_ := some (w 0),
                       coef_ := some (List.ofFn fun i : Fin p => w i.succ) }
  else
    Except.error FitError.DimensionMismatch

/-- The estimator object as the caller sees it after a fit call: on
success the updated object, on a raised exception the object exactly as
it was (the source assigns to self only after w has been computed, so
an exception propagates with self untouched). -/
def RidgeRegression.fitCall {n p m : ℕ} (s : RidgeRegression)
    (X : Matrix (Fin n) (Fin p) ℚ) (y : Fin m → ℚ) : RidgeRegression :=
  match s.fit X y with
  | Except.ok s' => s'
  | Except.error _ => s

/-- The caller's X and y as they stand after fit returns.  fit copies X
(X_ = X.copy()) and hstack allocates a fresh array, so every write in
the body lands in the private copy; neither the X buffer nor y is ever
written.  Hence the post-call values equal the inputs. -/
def RidgeRegression.fitArgsAfter {n p m : ℕ} (_ : RidgeRegression)
    (X : Matrix (Fin n) (Fin p) ℚ) (y : Fin m → ℚ) :
    Matrix (Fin n) (Fin p) ℚ × (Fin m → ℚ) :=
  (X, y)

/-- predict(self, X) = X.dot(self.coef_) + self.intercept_.
X.dot(None) raises before any shape is consulted (NotFitted); a fitted
coefficient vector of length different from X's column count makes dot
raise ValueError (DimensionMismatch); adding a None intercept raises
after the dot (NotFitted). -/
def RidgeRegression.predict {n q : ℕ} (s : RidgeRegression)
    (X : Matrix (Fin n) (Fin q) ℚ) : Except FitError (Fin n → ℚ) :=
  match s.coef_ with
  | none => Except.error FitError.NotFitted
  | some c =>
    if h : q = c.length then
      match s.intercept_ with
      | none => Except.error FitError.NotFitted
      | some b =>
        Except.ok fun i => (∑ j : Fin q, X i j * c.get (Fin.cast h j)) + b
    else
      Except.error FitError.DimensionMismatch

/-- Model of sklearn.metrics.r2_score (the library function score
calls), at its default arguments: with num = Σ(y − ŷ)² and
den = Σ(y − ȳ)², the result is 1 − num/den when den is nonzero, and
when den = 0 the library returns 1.0 if num = 0 and 0.0 otherwise.
(The library's NaN answer for fewer than two samples is a
floating-point artefact outside this exact-arithmetic model.) -/
def r2Score {n : ℕ} (ytrue ypred : Fin n → ℚ) : ℚ :=
  let num := ∑ i, (ytrue i - ypred i) ^ 2
  let ybar := (∑ i, ytrue i) / (n : ℚ)
  let den := ∑ i, (ytrue i - ybar) ^ 2
  if den = 0 then (if num = 0 then 1 else 0) else 1 - num / den

/-- score(self, X, y): predictions = X.dot(self.coef_) + self.intercept_
followed by r2_score(y, predictions).  The same access order as predict
governs NotFitted and the column-count mismatch; r2_score itself raises
ValueError when y and the predictions have different lengths. -/
def RidgeRegression.score {n q m : ℕ} (s : RidgeRegression)
    (X : Matrix (Fin n) (Fin q) ℚ) (y : Fin m → ℚ) : Except FitError ℚ :=
  match s.coef_ with
  | none => Except.error FitError.NotFitted
  | some c =>
    if h : q = c.length then
      match s.intercept_ with
      | none => Except.error FitError.NotFitted
      | some b =>
        if h2 : m = n then
          Except.ok (r2Score (fun i => y (Fin.cast h2.symm i))
            (fun i => (∑ j : Fin q, X i j * c.get (Fin.cast h j)) + b))
        else
          Except.error FitError.DimensionMismatch
    else
      Except.error FitError.DimensionMismatch

/-- get_params(self, deep=True) = the dict with the single key alpha. -/
def RidgeRegression.get_params (s : RidgeRegression) : List (String × ℚ) :=
  [("alpha", s.alpha)]

/-- set_params(self, **params): iterate over the items; an item whose
key is alpha assigns self.alpha; every other item is passed over with
no effect and no error; finally return self. -/
def RidgeRegression.set_params (s : RidgeRegression) :
    List (String × ℚ) → RidgeRegression
  | [] => s
  | (k, v) :: rest =>
    if k = "alpha" then RidgeRegression.set_params { s with alpha := v } rest
    else RidgeRegression.set_params s rest

/-! General lemmas about the embedded operations -/

/-- Unfolding equation for fit on the success path: with a nonsingular
penalized matrix and matching lengths, fit returns the updated state
built from w = inv(M) (X-tilde transposed) y. -/
theorem fit_eq_ok {n p : ℕ} (s : RidgeRegression) (X : Matrix (Fin n) (Fin p) ℚ)
    (y : Fin n → ℚ) (hdet : (normalMatrix s.alpha X).det ≠ 0) :
    s.fit X y = Except.ok
      ⟨s.alpha,
       some ((minv (normalMatrix s.alpha X) *ᵥ ((augment X)ᵀ *ᵥ y)) 0),
       some (List.ofFn fun i : Fin p =>
         (minv (normalMatrix s.alpha X) *ᵥ ((augment X)ᵀ *ᵥ y)) i.succ)⟩ := by
  unfold RidgeRegression.fit
  rw [if_neg hdet, dif_pos rfl]
  rfl

/-- Unfolding equation for fit on a singular penalized matrix. -/
theorem fit_eq_sing {n p m : ℕ} (s : RidgeRegression) (X : Matrix (Fin n) (Fin p) ℚ)
    (y : Fin m → ℚ) (hdet : (normalMatrix s.alpha X).det = 0) :
    s.fit X y = Except.error FitError.SingularMatrix := by
  unfold RidgeRegression.fit
  rw [if_pos hdet]

/-- Unfolding equation for fit when the penalized matrix is invertible
but the length of y disagrees with the row count of X. -/
theorem fit_eq_dim {n p m : ℕ} (s : RidgeRegression) (X : Matrix (Fin n) (Fin p) ℚ)
    (y : Fin m → ℚ) (hdet : (normalMatrix s.alpha X).det ≠ 0) (hm : m ≠ n) :
    s.fit X y = Except.error FitError.DimensionMismatch := by
  unfold RidgeRegression.fit
  rw [if_neg hdet, dif_neg hm]

/-- The modelled np.linalg.inv is a left inverse on nonsingular input. -/
theorem minv_mul {k : ℕ} (A : Matrix (Fin k) (Fin k) ℚ) (h : A.det ≠ 0) :
    minv A * A = 1 := by
  rw [minv, smul_mul_assoc, Matrix.adjugate_mul, smul_smul, inv_mul_cancel₀ h,
    one_smul]

/-- The modelled np.linalg.inv is a right inverse on nonsingular input. -/
theorem mul_minv {k : ℕ} (A : Matrix (Fin k) (Fin k) ℚ) (h : A.det ≠ 0) :
    A * minv A = 1 := by
  rw [minv, mul_smul_comm, Matrix.mul_adjugate, smul_smul, inv_mul_cancel₀ h,
    one_smul]

/-- set_params never touches intercept_. -/
theorem set_params_intercept (s : RidgeRegression) (ps : List (String × ℚ)) :
    (s.set_params ps).intercept_ = s.intercept_ := by
  induction ps generalizing s with
  | nil => rfl
  | cons kv rest ih =>
    obtain ⟨k, v⟩ := kv
    by_cases hk : k = "alpha" <;> simp [RidgeRegression.set_params, hk, ih]

/-- set_params never touches coef_. -/
theorem set_params_coef (s : RidgeRegression) (ps : List (String × ℚ)) :
    (s.set_params ps).coef_ = s.coef_ := by
  induction ps generalizing s with
  | nil => rfl
  | cons kv rest ih =>
    obtain ⟨k, v⟩ := kv
    by_cases hk : k = "alpha" <;> simp [RidgeRegression.set_params, hk, ih]

/-- set_params with items none of which carry the alpha key is the
identity: unknown keys are passed over silently. -/
theorem set_params_no_alpha (s : RidgeRegression) (ps : List (String × ℚ))
    (h : ∀ kv ∈ ps, kv.1 ≠ "alpha") : s.set_params ps = s := by
  induction ps generalizing s with
  | nil => rfl
  | cons kv rest ih =>
    obtain ⟨k, v⟩ := kv
    have hk : k ≠ "alpha" := h (k, v) (List.mem_cons_self _ _)
    simp only [RidgeRegression.set_params, if_neg hk]
    exact ih s fun kv hkv => h kv (List.mem_cons_of_mem _ hkv)

/-! Concrete evaluations used by witnesses and counterexamples -/

/-- The penalized matrix for alpha = 1 and the 1 by 1 design [[1]]. -/
theorem normalMatrix_one : normalMatrix (1 : ℚ) !![(1 : ℚ)] = !![1, 1; 1, 2] := by
  ext i j
  fin_cases i <;> fin_cases j <;>
    simp [normalMatrix, augment, penaltyId, Matrix.mul_apply,
      Fin.sum_univ_succ, Matrix.vecHead, Matrix.vecTail] <;> norm_num

/-- The penalized matrix for alpha = 0 and the 1 by 1 design [[1]]. -/
theorem normalMatrix_zero : normalMatrix (0 : ℚ) !![(1 : ℚ)] = !![1, 1; 1, 1] := by
  ext i j
  fin_cases i <;> fin_cases j <;>
    simp [normalMatrix, augment, penaltyId, Matrix.mul_apply,
      Fin.sum_univ_succ, Matrix.vecHead, Matrix.vecTail] <;> norm_num

/-- The penalized matrix for alpha = 1 and the 2 by 1 design [[1],[1]]. -/
theorem normalMatrix_two : normalMatrix (1 : ℚ) !![(1 : ℚ); 1] = !![2, 2; 2, 3] := by
  ext i j
  fin_cases i <;> fin_cases j <;>
    simp [normalMatrix, augment, penaltyId, Matrix.mul_apply,
      Fin.sum_univ_succ, Matrix.vecHead, Matrix.vecTail] <;> norm_num

/-- Determinant of the alpha = 1 penalized matrix on [[1]]. -/
theorem det_normalMatrix_one : (normalMatrix (1 : ℚ) !![(1 : ℚ)]).det = 1 := by
  rw [normalMatrix_one, Matrix.det_fin_two_of]
  norm_num

/-- Determinant of the alpha = 0 penalized matrix on [[1]]: singular. -/
theorem det_normalMatrix_zero : (normalMatrix (0 : ℚ) !![(1 : ℚ)]).det = 0 := by
  rw [normalMatrix_zero, Matrix.det_fin_two_of]
  norm_num

/-- Determinant of the alpha = 1 penalized matrix on [[1],[1]]. -/
theorem det_normalMatrix_two : (normalMatrix (1 : ℚ) !![(1 : ℚ); 1]).det = 2 := by
  rw [normalMatrix_two, Matrix.det_fin_two_of]
  norm_num

/-- The inverse of the alpha = 1 penalized matrix on [[1],[1]]. -/
theorem minv_two : minv !![(2 : ℚ), 2; 2, 3] = !![3 / 2, -1; -1, 1] := by
  rw [minv, Matrix.det_fin_two_of, Matrix.adjugate_fin_two_of]
  ext i j
  fin_cases i <;> fin_cases j <;> norm_num

/-- The right-hand side of the normal equations for X = [[1],[1]],
y = [5,5]. -/
theorem rhs_two : (augment !![(1 : ℚ); 1])ᵀ *ᵥ ![(5 : ℚ), 5] = ![10, 10] := by
  funext j
  fin_cases j <;>
    simp [augment, Matrix.mulVec, dotProduct, Fin.sum_univ_succ,
      Matrix.vecHead, Matrix.vecTail] <;> norm_num

/-- The solved weight vector for alpha = 1, X = [[1],[1]], y = [5,5]. -/
theorem weights_two :
    minv (normalMatrix (1 : ℚ) !![(1 : ℚ); 1]) *ᵥ
      ((augment !![(1 : ℚ); 1])ᵀ *ᵥ ![(5 : ℚ), 5]) = ![5, 0] := by
  rw [normalMatrix_two, rhs_two, minv_two]
  funext i
  fin_cases i <;>
    simp [Matrix.mulVec, dotProduct, Fin.sum_univ_succ] <;> norm_num

/-- Fitting alpha = 1 on X = [[1],[1]], y = [5,5] succeeds with
intercept 5 and coefficient vector [0]. -/
theorem fit_two :
    (RidgeRegression.init 1).fit !![(1 : ℚ); 1] ![(5 : ℚ), 5] =
      Except.ok ⟨1, some 5, some [0]⟩ := by
  have hdet : (normalMatrix (RidgeRegression.init 1).alpha !![(1 : ℚ); 1]).det ≠ 0 := by
    show (normalMatrix (1 : ℚ) !![(1 : ℚ); 1]).det ≠ 0
    rw [det_normalMatrix_two]
    norm_num
  rw [fit_eq_ok _ _ _ hdet]
  simp only [RidgeRegression.init]
  rw [weights_two]
  simp [List.ofFn_succ, Matrix.vecHead]

/-- Unfolding equation for score on the success path. -/
theorem score_eq_ok {n q : ℕ} (s : RidgeRegression) (c : List ℚ) (b : ℚ)
    (X : Matrix (Fin n) (Fin q) ℚ) (y : Fin n → ℚ)
    (hc : s.coef_ = some c) (hb : s.intercept_ = some b) (hq : q = c.length) :
    s.score X y = Except.ok (r2Score y
      (fun i => (∑ j : Fin q, X i j * c.get (Fin.cast hq j)) + b)) := by
  obtain ⟨a, ib, cb⟩ := s
  have hcb : cb = some c := hc
  have hib : ib = some b := hb
  subst hcb
  subst hib
  unfold RidgeRegression.score
  dsimp only
  rw [dif_pos hq, dif_pos rfl]
  rfl

/-- Unfolding equation for predict on the success path. -/
theorem predict_eq_ok {n q : ℕ} (s : RidgeRegression) (c : List ℚ) (b : ℚ)
    (X : Matrix (Fin n) (Fin q) ℚ)
    (hc : s.coef_ = some c) (hb : s.intercept_ = some b) (hq : q = c.length) :
    s.predict X = Except.ok
      (fun i => (∑ j : Fin q, X i j * c.get (Fin.cast hq j)) + b) := by
  obtain ⟨a, ib, cb⟩ := s
  have hcb : cb = some c := hc
  have hib : ib = some b := hb
  subst hcb
  subst hib
  unfold RidgeRegression.predict
  dsimp only
  rw [dif_pos hq]

/-- r2_score of a prediction identical to the targets is 1, including
when the targets are constant. -/
theorem r2Score_self {n : ℕ} (y : Fin n → ℚ) : r2Score y y = 1 := by
  simp [r2Score]

/-- r2_score agrees with the textbook formula whenever the total sum of
squares is nonzero. -/
theorem r2Score_formula {n : ℕ} (y yh : Fin n → ℚ)
    (hden : (∑ i, (y i - (∑ k, y k) / (n : ℚ)) ^ 2) ≠ 0) :
    r2Score y yh =
      1 - (∑ i, (y i - yh i) ^ 2) / (∑ i, (y i - (∑ k, y k) / (n : ℚ)) ^ 2) := by
  simp only [r2Score]
  rw [if_neg hden]

/-- r2_score of the constant prediction at the target mean is 0, as
long as the targets are not all equal. -/
theorem r2Score_mean {n : ℕ} (y yh : Fin n → ℚ)
    (hmean : ∀ i, yh i = (∑ k, y k) / (n : ℚ))
    (hden : (∑ i, (y i - (∑ k, y k) / (n : ℚ)) ^ 2) ≠ 0) :
    r2Score y yh = 0 := by
  have hnum : (∑ i, (y i - yh i) ^ 2) = ∑ i, (y i - (∑ k, y k) / (n : ℚ)) ^ 2 :=
    Finset.sum_congr rfl fun i _ => by rw [hmean i]
  rw [r2Score_formula y yh hden, hnum, div_self hden, sub_self]

/-- score of the fitted state of fit_two on its own training data:
predictions [5,5] coincide with the targets and with their mean, and
the result is 1. -/
theorem score_two :
    (RidgeRegression.mk 1 (some 5) (some [0])).score !![(1 : ℚ); 1] ![(5 : ℚ), 5] =
      Except.ok 1 := by
  rw [score_eq_ok (RidgeRegression.mk 1 (some 5) (some [0])) [0] 5
    !![(1 : ℚ); 1] ![(5 : ℚ), 5] rfl rfl rfl]
  have hfun : (fun i : Fin 2 =>
      (∑ j : Fin 1, !![(1 : ℚ); 1] i j * [(0 : ℚ)].get (Fin.cast rfl j)) + 5) =
      ![(5 : ℚ), 5] := by
    funext i
    fin_cases i <;> simp [Fin.sum_univ_one, Matrix.vecHead]
  rw [hfun, r2Score_self]

/-! Claim theorems -/

/-- Claim C1: for fit(X, y) with X an n by p real matrix (n, p at least
one), y of length n, and the penalized normal-equations matrix
M = X-tilde transposed times X-tilde plus P invertible, fit succeeds and
sets intercept to w[0] and coefficients to w[1:], where w is the unique
solution of M w = X-tilde transposed times y. -/
theorem fit_solves_normal_equations {n p : ℕ} (s : RidgeRegression)
    (X : Matrix (Fin n) (Fin p) ℚ) (y : Fin n → ℚ) (_hn : 1 ≤ n) (_hp : 1 ≤ p)
    (hdet : (normalMatrix s.alpha X).det ≠ 0) :
    ∃ w : Fin (p + 1) → ℚ,
      normalMatrix s.alpha X *ᵥ w = (augment X)ᵀ *ᵥ y ∧
      (∀ w' : Fin (p + 1) → ℚ,
        normalMatrix s.alpha X *ᵥ w' = (augment X)ᵀ *ᵥ y → w' = w) ∧
      s.fit X y = Except.ok
        ⟨s.alpha, some (w 0), some (List.ofFn fun i : Fin p => w i.succ)⟩ := by
  refine ⟨minv (normalMatrix s.alpha X) *ᵥ ((augment X)ᵀ *ᵥ y), ?_, ?_,
    fit_eq_ok s X y hdet⟩
  · rw [Matrix.mulVec_mulVec, mul_minv _ hdet, Matrix.one_mulVec]
  · intro w' hw'
    have h1 : minv (normalMatrix s.alpha X) *ᵥ (normalMatrix s.alpha X *ᵥ w') =
        minv (normalMatrix s.alpha X) *ᵥ ((augment X)ᵀ *ᵥ y) := by rw [hw']
    rwa [Matrix.mulVec_mulVec, minv_mul _ hdet, Matrix.one_mulVec] at h1

/-- Witness for C1 at alpha = 1, X = [[1]], y = [5]: the penalized
matrix is [[1,1],[1,2]], invertible. -/
theorem fit_solves_normal_equations_witness :
    ∃ w : Fin 2 → ℚ,
      normalMatrix (RidgeRegression.init 1).alpha !![(1 : ℚ)] *ᵥ w =
        (augment !![(1 : ℚ)])ᵀ *ᵥ ![(5 : ℚ)] ∧
      (∀ w' : Fin 2 → ℚ,
        normalMatrix (RidgeRegression.init 1).alpha !![(1 : ℚ)] *ᵥ w' =
          (augment !![(1 : ℚ)])ᵀ *ᵥ ![(5 : ℚ)] → w' = w) ∧
      (RidgeRegression.init 1).fit !![(1 : ℚ)] ![(5 : ℚ)] = Except.ok
        ⟨(RidgeRegression.init 1).alpha, some (w 0),
         some (List.ofFn fun i : Fin 1 => w i.succ)⟩ :=
  fit_solves_normal_equations (RidgeRegression.init 1) !![(1 : ℚ)] ![(5 : ℚ)]
    (by norm_num) (by norm_num)
    (by show (normalMatrix (1 : ℚ) !![(1 : ℚ)]).det ≠ 0
        rw [det_normalMatrix_one]; norm_num)

/-- Claim C2: whenever the penalized normal-equations matrix is
singular, fit fails with the SingularMatrix error; no least-norm or
other fallback is returned (for any y, of any length). -/
theorem fit_singular_matrix_error {n p m : ℕ} (s : RidgeRegression)
    (X : Matrix (Fin n) (Fin p) ℚ) (y : Fin m → ℚ)
    (hdet : (normalMatrix s.alpha X).det = 0) :
    s.fit X y = Except.error FitError.SingularMatrix :=
  fit_eq_sing s X y hdet

/-- Witness for C2 at alpha = 0, X = [[1]]: the penalized matrix is
[[1,1],[1,1]], singular. -/
theorem fit_singular_matrix_error_witness :
    (RidgeRegression.init 0).fit !![(1 : ℚ)] ![(5 : ℚ)] =
      Except.error FitError.SingularMatrix :=
  fit_singular_matrix_error (RidgeRegression.init 0) !![(1 : ℚ)] ![(5 : ℚ)]
    (by show (normalMatrix (0 : ℚ) !![(1 : ℚ)]).det = 0
        exact det_normalMatrix_zero)

/-- Counterexample to C3 as stated: X = [[1]] has 1 row, y = [1,2] has
length 2, yet with alpha = 0 the penalized matrix [[1,1],[1,1]] is
singular and fit fails with SingularMatrix, not DimensionMismatch — the
inverse is computed before the product with y ever checks lengths. -/
theorem fit_dim_mismatch_counterexample :
    (RidgeRegression.init 0).fit !![(1 : ℚ)] ![(1 : ℚ), 2] =
      Except.error FitError.SingularMatrix ∧
    (RidgeRegression.init 0).fit !![(1 : ℚ)] ![(1 : ℚ), 2] ≠
      Except.error FitError.DimensionMismatch := by
  have h := fit_eq_sing (RidgeRegression.init 0) !![(1 : ℚ)] ![(1 : ℚ), 2]
    (by show (normalMatrix (0 : ℚ) !![(1 : ℚ)]).det = 0
        exact det_normalMatrix_zero)
  refine ⟨h, ?_⟩
  rw [h]
  simp

/-- Claim C3 (amended): fit fails with DimensionMismatch whenever the
row count of X differs from the length of y, provided the penalized
matrix is invertible (on a singular matrix the SingularMatrix error
preempts it); and predict on a fitted estimator fails with
DimensionMismatch whenever the column count of X differs from the
length of the fitted coefficient vector. -/
theorem dim_mismatch_errors :
    (∀ {n p m : ℕ} (s : RidgeRegression) (X : Matrix (Fin n) (Fin p) ℚ)
      (y : Fin m → ℚ), (normalMatrix s.alpha X).det ≠ 0 → m ≠ n →
      s.fit X y = Except.error FitError.DimensionMismatch) ∧
    (∀ {n q : ℕ} (s : RidgeRegression) (X : Matrix (Fin n) (Fin q) ℚ)
      (c : List ℚ), s.coef_ = some c → q ≠ c.length →
      s.predict X = Except.error FitError.DimensionMismatch) := by
  constructor
  · intro n p m s X y hdet hm
    exact fit_eq_dim s X y hdet hm
  · intro n q s X c hc hq
    obtain ⟨a, ib, cb⟩ := s
    have hcb : cb = some c := hc
    subst hcb
    unfold RidgeRegression.predict
    dsimp only
    rw [dif_neg hq]

/-- Witness for C3 (amended): a 1-row X with a length-2 y under
alpha = 1 (invertible penalized matrix) gives DimensionMismatch from
fit; a fitted coefficient vector of length 2 against a 1-column X gives
DimensionMismatch from predict. -/
theorem dim_mismatch_errors_witness :
    (RidgeRegression.init 1).fit !![(1 : ℚ)] ![(1 : ℚ), 2] =
      Except.error FitError.DimensionMismatch ∧
    (RidgeRegression.mk 1 (some 0) (some [1, 1])).predict !![(3 : ℚ)] =
      Except.error FitError.DimensionMismatch :=
  ⟨dim_mismatch_errors.1 (RidgeRegression.init 1) !![(1 : ℚ)] ![(1 : ℚ), 2]
      (by show (normalMatrix (1 : ℚ) !![(1 : ℚ)]).det ≠ 0
          rw [det_normalMatrix_one]; norm_num)
      (by norm_num),
   dim_mismatch_errors.2 (RidgeRegression.mk 1 (some 0) (some [1, 1]))
      !![(3 : ℚ)] [1, 1] rfl (by simp)⟩

/-- Claim C4: on an estimator whose fitted state is absent (fit never
succeeded: coef_ and intercept_ are both None), predict and score fail
with NotFitted for every X and y. -/
theorem predict_score_not_fitted {n q m : ℕ} (s : RidgeRegression)
    (X : Matrix (Fin n) (Fin q) ℚ) (y : Fin m → ℚ)
    (hc : s.coef_ = none) (_hb : s.intercept_ = none) :
    s.predict X = Except.error FitError.NotFitted ∧
    s.score X y = Except.error FitError.NotFitted := by
  obtain ⟨a, ib, cb⟩ := s
  have hcb : cb = none := hc
  subst hcb
  exact ⟨rfl, rfl⟩

/-- Witness for C4: a freshly constructed estimator. -/
theorem predict_score_not_fitted_witness :
    (RidgeRegression.init 1).predict !![(1 : ℚ)] =
      Except.error FitError.NotFitted ∧
    (RidgeRegression.init 1).score !![(1 : ℚ)] ![(1 : ℚ)] =
      Except.error FitError.NotFitted :=
  predict_score_not_fitted (RidgeRegression.init 1) !![(1 : ℚ)] ![(1 : ℚ)]
    rfl rfl

/-- Counterexample to C5 as stated: set_params with the unknown key
beta does not fail with UnknownParameter (set_params is total and never
fails); it silently ignores the key and returns the estimator
unchanged. -/
theorem set_params_unknown_key_counterexample :
    (RidgeRegression.init 1).set_params [("beta", 2)] = RidgeRegression.init 1 :=
  rfl

/-- Claim C5 (amended): set_params silently ignores every key other
than alpha — it never fails; a mapping free of the alpha key leaves the
estimator unchanged; the alpha key updates alpha; intercept_ and coef_
are never touched; the (updated) estimator itself is returned. -/
theorem set_params_behavior (s : RidgeRegression) (ps : List (String × ℚ))
    (v : ℚ) :
    (s.set_params ps).intercept_ = s.intercept_ ∧
    (s.set_params ps).coef_ = s.coef_ ∧
    ((∀ kv ∈ ps, kv.1 ≠ "alpha") → s.set_params ps = s) ∧
    s.set_params [("alpha", v)] = { s with alpha := v } :=
  ⟨set_params_intercept s ps, set_params_coef s ps,
   set_params_no_alpha s ps, rfl⟩

/-- Witness for C5 (amended) at a fitted estimator, an unknown key
beta, and an alpha update to 7. -/
theorem set_params_behavior_witness :
    ((RidgeRegression.mk 1 (some 2) (some [3])).set_params
        [("beta", 9)]).intercept_ = some 2 ∧
    ((RidgeRegression.mk 1 (some 2) (some [3])).set_params
        [("beta", 9)]).coef_ = some [3] ∧
    (RidgeRegression.mk 1 (some 2) (some [3])).set_params [("beta", 9)] =
      RidgeRegression.mk 1 (some 2) (some [3]) ∧
    (RidgeRegression.mk 1 (some 2) (some [3])).set_params [("alpha", 7)] =
      RidgeRegression.mk 7 (some 2) (some [3]) := by
  obtain ⟨h1, h2, h3, h4⟩ := set_params_behavior
    (RidgeRegression.mk 1 (some 2) (some [3])) [("beta", 9)] 7
  exact ⟨h1, h2, h3 (by simp), h4⟩

/-- Claim C6: fit is atomic — it either returns a state with both
intercept_ and coef_ freshly assigned, or it raises, in which case the
caller's estimator is left exactly as it was. -/
theorem fit_atomic {n p m : ℕ} (s : RidgeRegression)
    (X : Matrix (Fin n) (Fin p) ℚ) (y : Fin m → ℚ) :
    (∃ s', s.fit X y = Except.ok s' ∧ s.fitCall X y = s' ∧
      (∃ b, s'.intercept_ = some b) ∧ (∃ c, s'.coef_ = some c)) ∨
    ((∃ e, s.fit X y = Except.error e) ∧ s.fitCall X y = s) := by
  by_cases hdet : (normalMatrix s.alpha X).det = 0
  · refine Or.inr ⟨⟨FitError.SingularMatrix, fit_eq_sing s X y hdet⟩, ?_⟩
    unfold RidgeRegression.fitCall
    rw [fit_eq_sing s X y hdet]
  · by_cases hm : m = n
    · subst hm
      refine Or.inl ⟨_, fit_eq_ok s X y hdet, ?_, ⟨_, rfl⟩, ⟨_, rfl⟩⟩
      unfold RidgeRegression.fitCall
      rw [fit_eq_ok s X y hdet]
    · refine Or.inr ⟨⟨FitError.DimensionMismatch, fit_eq_dim s X y hdet hm⟩, ?_⟩
      unfold RidgeRegression.fitCall
      rw [fit_eq_dim s X y hdet hm]

/-- Claim C7: fit leaves the caller's X and y as they were (it works on
a private augmented copy) and never changes alpha; only intercept_ and
coef_ are written. -/
theorem fit_frame_conditions {n p m : ℕ} (s : RidgeRegression)
    (X : Matrix (Fin n) (Fin p) ℚ) (y : Fin m → ℚ) :
    s.fitArgsAfter X y = (X, y) ∧
    (∀ s', s.fit X y = Except.ok s' → s'.alpha = s.alpha) ∧
    (s.fitCall X y).alpha = s.alpha := by
  have halpha : ∀ s', s.fit X y = Except.ok s' → s'.alpha = s.alpha := by
    intro s' hs'
    by_cases hdet : (normalMatrix s.alpha X).det = 0
    · rw [fit_eq_sing s X y hdet] at hs'
      exact absurd hs' (by simp)
    · by_cases hm : m = n
      · subst hm
        rw [fit_eq_ok s X y hdet] at hs'
        injection hs' with h
        subst h
        rfl
      · rw [fit_eq_dim s X y hdet hm] at hs'
        exact absurd hs' (by simp)
  refine ⟨rfl, halpha, ?_⟩
  unfold RidgeRegression.fitCall
  cases hfit : s.fit X y with
  | ok s' => exact halpha s' hfit
  | error e => rfl

/-- Witness for C7: the frame conditions at the concrete successful fit
of fit_two. -/
theorem fit_frame_conditions_witness :
    (RidgeRegression.init 1).fitArgsAfter !![(1 : ℚ); 1] ![(5 : ℚ), 5] =
      (!![(1 : ℚ); 1], ![(5 : ℚ), 5]) ∧
    (RidgeRegression.mk 1 (some 5) (some [0])).alpha =
      (RidgeRegression.init 1).alpha :=
  ⟨(fit_frame_conditions (RidgeRegression.init 1) !![(1 : ℚ); 1]
      ![(5 : ℚ), 5]).1,
   (fit_frame_conditions (RidgeRegression.init 1) !![(1 : ℚ); 1]
      ![(5 : ℚ), 5]).2.1 (RidgeRegression.mk 1 (some 5) (some [0])) fit_two⟩

/-- Counterexample to C8 as stated: fitting alpha = 1 on X = [[1],[1]],
y = [5,5] yields intercept 5 and coefficient [0]; every prediction (5)
equals the mean of the targets (5), yet score returns 1, not 0 — with
constant targets and zero residuals r2_score returns 1.0. -/
theorem score_mean_counterexample :
    (RidgeRegression.init 1).fit !![(1 : ℚ); 1] ![(5 : ℚ), 5] =
      Except.ok ⟨1, some 5, some [0]⟩ ∧
    (RidgeRegression.mk 1 (some 5) (some [0])).score !![(1 : ℚ); 1]
      ![(5 : ℚ), 5] = Except.ok 1 ∧
    (Except.ok 1 : Except FitError ℚ) ≠ Except.ok 0 :=
  ⟨fit_two, score_two, by simp⟩

/-- Claim C8 (amended): for a fitted estimator and shape-compatible X
and y, score returns r2_score between y and the predictions; that value
is the textbook 1 − SSres/SStot whenever SStot is nonzero; it is 1 when
the predictions equal the targets (even for constant targets); and it
is 0 when every prediction equals the target mean, provided the targets
are not all equal (for constant targets with exact predictions the
library returns 1 instead). -/
theorem score_r2 {n q : ℕ} (s : RidgeRegression) (c : List ℚ) (b : ℚ)
    (X : Matrix (Fin n) (Fin q) ℚ) (y yhat : Fin n → ℚ)
    (hc : s.coef_ = some c) (hb : s.intercept_ = some b)
    (hq : q = c.length)
    (hyhat : yhat = fun i => (∑ j : Fin q, X i j * c.get (Fin.cast hq j)) + b) :
    s.score X y = Except.ok (r2Score y yhat) ∧
    ((∑ i, (y i - (∑ k, y k) / (n : ℚ)) ^ 2) ≠ 0 →
      s.score X y = Except.ok (1 - (∑ i, (y i - yhat i) ^ 2) /
        (∑ i, (y i - (∑ k, y k) / (n : ℚ)) ^ 2))) ∧
    (yhat = y → s.score X y = Except.ok 1) ∧
    ((∀ i, yhat i = (∑ k, y k) / (n : ℚ)) →
      (∑ i, (y i - (∑ k, y k) / (n : ℚ)) ^ 2) ≠ 0 →
      s.score X y = Except.ok 0) := by
  have h0 := score_eq_ok s c b X y hc hb hq
  subst hyhat
  refine ⟨h0, fun hden => ?_, fun hperf => ?_, fun hmean hden => ?_⟩
  · rw [h0, r2Score_formula y _ hden]
  · rw [h0, hperf, r2Score_self]
  · rw [h0, r2Score_mean y _ hmean hden]

/-- Witness for C8 (amended) at the fitted state of fit_two evaluated
on its training data, where predictions equal targets and score is 1. -/
theorem score_r2_witness :
    (RidgeRegression.mk 1 (some 5) (some [0])).score !![(1 : ℚ); 1]
      ![(5 : ℚ), 5] = Except.ok (r2Score ![(5 : ℚ), 5]
        (fun i => (∑ j : Fin 1, !![(1 : ℚ); 1] i j *
          [(0 : ℚ)].get (Fin.cast rfl j)) + 5)) ∧
    (RidgeRegression.mk 1 (some 5) (some [0])).score !![(1 : ℚ); 1]
      ![(5 : ℚ), 5] = Except.ok 1 := by
  have h := score_r2 (RidgeRegression.mk 1 (some 5) (some [0])) [0] 5
    !![(1 : ℚ); 1] ![(5 : ℚ), 5]
    (fun i => (∑ j : Fin 1, !![(1 : ℚ); 1] i j *
      [(0 : ℚ)].get (Fin.cast rfl j)) + 5) rfl rfl rfl rfl
  refine ⟨h.1, h.2.2.1 ?_⟩
  funext i
  fin_cases i <;> simp [Fin.sum_univ_one, Matrix.vecHead]

/-- Claim C9: set_params with alpha = v followed by get_params returns
the mapping with alpha bound to v, and a subsequent fit builds the
penalty with alpha = v. -/
theorem params_round_trip {n p m : ℕ} (s : RidgeRegression) (v : ℚ)
    (X : Matrix (Fin n) (Fin p) ℚ) (y : Fin m → ℚ) :
    (s.set_params [("alpha", v)]).get_params = [("alpha", v)] ∧
    (s.set_params [("alpha", v)]).alpha = v ∧
    (s.set_params [("alpha", v)]).fit X y =
      (RidgeRegression.mk v s.intercept_ s.coef_).fit X y ∧
    normalMatrix (s.set_params [("alpha", v)]).alpha X =
      (augment X)ᵀ * augment X + v • penaltyId p :=
  ⟨rfl, rfl, rfl, rfl⟩

/-- Claim C10: a successful fit on an n by p design leaves a
coefficient vector of length exactly p, and set_params (the only other
state-changing operation; predict, score and get_params read the state
without writing it) preserves coef_ unchanged. -/
theorem coef_length_invariant {n p m : ℕ} (s : RidgeRegression)
    (X : Matrix (Fin n) (Fin p) ℚ) (y : Fin m → ℚ) (s' : RidgeRegression)
    (hfit : s.fit X y = Except.ok s') :
    (∃ c, s'.coef_ = some c ∧ c.length = p) ∧
    (∀ ps, (s'.set_params ps).coef_ = s'.coef_) := by
  by_cases hdet : (normalMatrix s.alpha X).det = 0
  · rw [fit_eq_sing s X y hdet] at hfit
    exact absurd hfit (by simp)
  · by_cases hm : m = n
    · subst hm
      rw [fit_eq_ok s X y hdet] at hfit
      injection hfit with h
      subst h
      exact ⟨⟨_, rfl, by simp⟩, fun ps => set_params_coef _ ps⟩
    · rw [fit_eq_dim s X y hdet hm] at hfit
      exact absurd hfit (by simp)

/-- Witness for C10 at the concrete successful fit of fit_two: the
coefficient vector [0] has length 1 = p. -/
theorem coef_length_invariant_witness :
    (∃ c, (RidgeRegression.mk 1 (some 5) (some [0])).coef_ = some c ∧
      c.length = 1) ∧
    (∀ ps, ((RidgeRegression.mk 1 (some 5) (some [0])).set_params ps).coef_ =
      (RidgeRegression.mk 1 (some 5) (some [0])).coef_) :=
  coef_length_invariant (RidgeRegression.init 1) !![(1 : ℚ); 1]
    ![(5 : ℚ), 5] (RidgeRegression.mk 1 (some 5) (some [0])) fit_two

end RidgeSpec
